import Mathlib

/-!
Verification of the core of `test_measure_process_lib` (the `tmpl` package).

The development shallowly embeds the data model and operations of
`tmpl/tmpl_core.py`: the labelled result store built on xarray Datasets
(coordinates, data variables, condition accumulation, merge), the run-order
scheduler of `AbstractTestManager` (condition table, running order,
stage rules, FIRST_TIME/LAST_TIME triggers) and the execution drivers
(`AbstractTestManager.run`, `AbstractMeasurement.run`,
`run_meas_on_error`, `get_services`).

Python values are modelled by an explicit value type; Python dicts by
insertion-ordered association lists; exceptions by `Except String`.
-/

namespace TMPL

/-- Scalar Python values that occur as condition values, triggers and stored
data in the library: numbers, strings, booleans and `None`. -/
inductive Val where
  | intV  : Int → Val
  | strV  : String → Val
  | boolV : Bool → Val
  | noneV : Val
  deriving DecidableEq, Repr

/-- A Python value supplied in a conditions map: either a scalar or a
sequence (list/array).  `set_conditions` rejects anything with `__len__`. -/
inductive PyVal where
  | scalar : Val → PyVal
  | listV  : List Val → PyVal
  deriving DecidableEq, Repr

/-- Model of Python `hasattr(v, "__len__")` on the values above: lists have a
length, and so do strings; numbers, booleans and `None` do not. -/
def hasLen : PyVal → Bool
  | PyVal.scalar (Val.strV _) => true
  | PyVal.scalar _ => false
  | PyVal.listV _ => true

/-- Model of Python `hasattr(v, "__len__")` for a bare scalar value
(used by the assert in `add_to_running_order`): only strings have one. -/
def hasLenVal : Val → Bool
  | Val.strV _ => true
  | _ => false

/-- Underlying scalar of a `PyVal` known to be scalar (callers guard with
`hasLen`; the `listV` branch is unreachable after that guard). -/
def PyVal.toVal : PyVal → Val
  | PyVal.scalar v => v
  | PyVal.listV _ => Val.noneV

/-- Python dict lookup `d[k]` on an insertion-ordered association list. -/
def alookup {α β : Type} [DecidableEq α] (k : α) : List (α × β) → Option β
  | [] => none
  | p :: rest => if p.1 = k then some p.2 else alookup k rest

/-- Python dict membership `k in d`. -/
def ahas {α β : Type} [DecidableEq α] (k : α) (l : List (α × β)) : Bool :=
  (alookup k l).isSome

/-- Python dict assignment `d[k] = v`: replaces the value at an existing key
in place, otherwise appends the new key at the end (insertion order). -/
def aset {α β : Type} [DecidableEq α] (k : α) (v : β) : List (α × β) → List (α × β)
  | [] => [(k, v)]
  | p :: rest => if p.1 = k then (p.1, v) :: rest else p :: aset k v rest

/-- One data variable of a result store Dataset: its dimension names (in
order) and the cells that have been written, addressed by one coordinate
value per dimension.  A combination with no cell holds the missing sentinel
(NaN); this models the NaN-filled dense array of `store_data_var`. -/
structure DataVar where
  dims  : List String
  cells : List (List Val × Val)
  deriving DecidableEq, Repr

/-- A result store (`ds_results`): ordered coordinates and data variables,
modelling the xarray Dataset used by every component. -/
structure Store where
  coords : List (String × List Val)
  vars   : List (String × DataVar)
  deriving DecidableEq, Repr

/-- The empty Dataset `xr.Dataset()`. -/
def emptyStore : Store := ⟨[], []⟩

/-- Outer-join union of two coordinate value lists, as produced by xarray
alignment with the default `join="outer"`: all values of both sides, each
once.  (pandas presents the union of an ordered index sorted; only
membership and the concrete unions used below matter here.) -/
def unionVals (a b : List Val) : List Val :=
  a ++ b.filter (fun v => decide (v ∉ a))

/-- Coordinate merge of `xr.merge` with default `join="outer"`: coordinates
present in both stores take the union of their values, coordinates present
in one store are adopted as-is.  This is the behaviour `set_conditions`
itself relies on (its comment: merging "will increase the size of data
variable dimensions and pad with NaNs"). -/
def mergeCoords (c1 c2 : List (String × List Val)) : List (String × List Val) :=
  (c1.map (fun p =>
    match alookup p.1 c2 with
    | some vs2 => (p.1, unionVals p.2 vs2)
    | none => p))
  ++ c2.filter (fun p => ! ahas p.1 c1)

/-- Combine the written cells of one variable appearing in both stores under
`compat="no_conflicts"`: a cell written on both sides must agree, a cell
written on one side is kept, a cell written on neither stays the missing
sentinel. -/
def mergeCells (c1 : List (List Val × Val)) : List (List Val × Val) → Except String (List (List Val × Val))
  | [] => Except.ok c1
  | p :: rest =>
    match alookup p.1 c1 with
    | none => mergeCells (c1 ++ [p]) rest
    | some v1 =>
      if v1 = p.2 then mergeCells c1 rest
      else Except.error "MergeError: conflicting values for variable"

/-- Merge one variable of the right-hand store into the accumulated variable
map (`compat="no_conflicts"`): a new name is appended, a shared name must
have the same dimensions and non-conflicting cells. -/
def mergeVarInto (acc : List (String × DataVar)) (p : String × DataVar) : Except String (List (String × DataVar)) :=
  match alookup p.1 acc with
  | none => Except.ok (acc ++ [p])
  | some dv1 =>
    if dv1.dims = p.2.dims then
      match mergeCells dv1.cells p.2.cells with
      | Except.ok cells => Except.ok (aset p.1 ⟨dv1.dims, cells⟩ acc)
      | Except.error e => Except.error e
    else Except.error "MergeError: conflicting dimensions for variable"

/-- Variable merge of `xr.merge`: union of the variables of both stores,
failing only on a genuine value conflict. -/
def mergeVars (v1 v2 : List (String × DataVar)) : Except String (List (String × DataVar)) :=
  v2.foldlM mergeVarInto v1

/-- Model of `xr.merge([ds1, ds2])` with the default arguments
(`join="outer"`, `compat="no_conflicts"`), the operation used by
`set_conditions` and by `AbstractTestManager.get_results`:
coordinates are outer-joined (shared names union their values, one-sided
names are adopted) and variables are unioned, erroring only when the same
variable carries conflicting written values.  A variable is NaN (has no
cell) at every coordinate combination it was never written at, so growth of
a coordinate NaN-pads every dependent variable automatically. -/
def xrMerge (s1 s2 : Store) : Except String Store :=
  match mergeVars s1.vars s2.vars with
  | Except.ok vars => Except.ok ⟨mergeCoords s1.coords s2.coords, vars⟩
  | Except.error e => Except.error e

/-- Model of `xr.merge(ds_list)` as used by `get_results`: fold of the
binary merge over the list, starting from the empty Dataset. -/
def xrMergeList (stores : List Store) : Except String Store :=
  stores.foldlM xrMerge emptyStore

/-- Embedding of `CommonUtility.set_conditions` (tmpl_core.py lines
417-465): reject any supplied value that has `__len__` (lists, arrays - and,
because Python strings have `__len__`, also strings); otherwise build a new
Dataset with each condition as a length-1 coordinate and merge it into
`ds_results` (which grows shared coordinates and NaN-pads dependent
variables), or install it directly when `ds_results` is `None`. -/
def set_conditions (conditions : List (String × PyVal)) (ds : Option Store) : Except String Store :=
  let notSingleValue := conditions.filter (fun p => hasLen p.2)
  if notSingleValue ≠ [] then
    Except.error "ValueError: Conditions must be single values"
  else
    let dsNew : Store := ⟨conditions.map (fun p => (p.1, [p.2.toVal])), []⟩
    match ds with
    | none => Except.ok dsNew
    | some d => xrMerge d dsNew

/-- Embedding of `CommonUtility.store_coords` (tmpl_core.py lines 577-608):
create the coordinate when the name is absent from the Dataset; when it is
already present require the same length (else ValueError) and the same
values (else ValueError), leaving the store untouched on an exact match.
A name that exists only as a data variable passes the membership test
(`name in ds` checks all Dataset variables) and then hits
`len(ds[name])` / `ds.coords[name]`, the latter raising KeyError;
that branch is modelled accordingly (it is unreachable in this
development). -/
def store_coords (name : String) (values : List Val) (ds : Option Store) : Except String Store :=
  let d := ds.getD emptyStore
  if ¬ (ahas name d.coords ∨ ahas name d.vars) then
    Except.ok ⟨d.coords ++ [(name, values)], d.vars⟩
  else
    match alookup name d.coords with
    | some vs =>
      if vs.length ≠ values.length then
        Except.error "ValueError: coordinate has different length to existing values"
      else if vs ≠ values then
        Except.error "ValueError: coordinate has different values than what is being entered"
      else
        Except.ok d
    | none =>
      let dv := (alookup name d.vars).getD ⟨[], []⟩
      let len1 := match dv.dims with
        | [] => 0
        | dname :: _ => ((alookup dname d.coords).getD []).length
      if len1 ≠ values.length then
        Except.error "ValueError: coordinate has different length to existing values"
      else
        Except.error "KeyError: name is a data variable, not a coordinate"

/-- The coordinate tuple addressing a cell of a variable: one pinned value
per dimension, looked up from the current conditions (`.loc[filtered_coords]`
with every coordinate pinned). -/
def tupleFor (dims : List String) (conds : List (String × Val)) : Option (List Val) :=
  dims.mapM (fun d => alookup d conds)

/-- Embedding of `CommonUtility.store_data_var` (tmpl_core.py lines 469-574)
for a scalar write with no extra coords, the shape used by the measurement
sequences modelled here: the effective coordinates are the current
conditions; they must be nonempty and all exist in the store; a first write
creates the variable NaN-filled over those dimensions; the write then pins
every coordinate (the `req_shape == ()` special case) and overwrites the
single cell there - last write wins. -/
def store_data_var (name : String) (v : Val) (conds : List (String × Val)) (st : Store) : Except String Store :=
  if conds = [] then
    Except.error "ValueError: data variable has no coordinates"
  else if (conds.filter (fun p => ¬ ahas p.1 st.coords)) ≠ [] then
    Except.error "ValueError: unknown coordinates"
  else
    let st1 : Store :=
      if ahas name st.vars ∨ ahas name st.coords then st
      else ⟨st.coords, st.vars ++ [(name, ⟨conds.map Prod.fst, []⟩)]⟩
    match alookup name st1.vars with
    | none => Except.error "TypeError: name is a coordinate"
    | some dv =>
      match tupleFor dv.dims conds with
      | none => Except.error "KeyError: coordinate not pinned"
      | some tup =>
        Except.ok ⟨st1.coords, aset name ⟨dv.dims, aset tup v dv.cells⟩ st1.vars⟩

/-- A setup condition as the scheduler sees it: its name and its ordered
sweep value list (`AbstractSetupConditions.name` / `.values`). -/
structure Condition where
  name   : String
  values : List Val
  deriving DecidableEq, Repr

/-- The six run stages of `CommonUtility` (`RUN_STAGE_STARTUP` ...). -/
inductive Stage where
  | STARTUP | TEARDOWN | SETUP | MAIN | AFTER | ERROR
  deriving DecidableEq, Repr

/-- One step of a measurement callback (`meas_sequence` / `process`): either
a scalar write into the measurement's result store via `store_data_var`, or
an exception raised at that point. -/
inductive Action where
  | store (name : String) (value : Val)
  | raiseErr (msg : String)
  deriving DecidableEq, Repr

/-- A measurement as the scheduler and driver see it: the enable flag, the
`run_conditions` stage rules (stage -> dict of condition label -> trigger
value, where the trigger `Val.noneV` is Python `None`, "every change"), and
the bodies of `meas_sequence` and `process` as action lists. -/
structure Measurement where
  enable        : Bool
  runConditions : List (Stage × List (String × Val))
  seqActs       : List Action
  procActs      : List Action
  deriving DecidableEq, Repr

/-- `AbstractMeasurement.COND_FIRST_TIME`. -/
def COND_FIRST_TIME : Val := Val.strV "FIRST_TIME"

/-- `AbstractMeasurement.COND_LAST_TIME`. -/
def COND_LAST_TIME : Val := Val.strV "LAST_TIME"

/-- The static data of an `AbstractTestManager`: the ordered conditions
(`self.conditions`, declaration order), the ordered measurements
(`self.meas`, keyed by label, declaration order) and `self.information`. -/
structure Manager where
  conditions  : List Condition
  meas        : List (String × Measurement)
  information : List (String × Val)
  deriving DecidableEq, Repr

/-- One line of the running order: a `CONDITION` operation (set a condition
setpoint) or a `MEASUREMENT` operation (run a measurement with a conditions
dict).  `add_to_running_order` deep-copies the arguments, so the conditions
dict carried here is a value snapshot, not a reference. -/
inductive Entry where
  | setCond (label : String) (value : Val)
  | runMeas (label : String) (args : List (String × Val))
  deriving DecidableEq, Repr

/-- Embedding of `AbstractTestManager.add_to_running_order` (lines
1176-1207): assert the label is known and, for a `CONDITION` line, that the
argument has no `__len__`; then append the line, with the arguments stored
as a deep copy (here: by value). -/
def add_to_running_order (mgr : Manager) (ord : List Entry) : Entry → Except String (List Entry)
  | Entry.setCond label v =>
    if ¬ mgr.conditions.any (fun c => c.name = label) then
      Except.error "AssertionError: unknown conditions label"
    else if hasLenVal v then
      Except.error "AssertionError: conditions arguments should be single values"
    else
      Except.ok (ord ++ [Entry.setCond label v])
  | Entry.runMeas label args =>
    if ¬ ahas label mgr.meas then
      Except.error "AssertionError: unknown measurement label"
    else
      Except.ok (ord ++ [Entry.runMeas label args])

/-- Embedding of `run_meas_on_startup` (lines 1251-1263): every measurement
whose `run_conditions` contains the STARTUP stage, in declaration order,
with an empty conditions dict. -/
def run_meas_on_startup (mgr : Manager) (ord : List Entry) : Except String (List Entry) :=
  mgr.meas.foldlM (fun o p =>
    if ¬ ahas Stage.STARTUP p.2.runConditions then Except.ok o
    else add_to_running_order mgr o (Entry.runMeas p.1 [])) ord

/-- Embedding of `run_meas_on_teardown` (lines 1266-1278). -/
def run_meas_on_teardown (mgr : Manager) (ord : List Entry) : Except String (List Entry) :=
  mgr.meas.foldlM (fun o p =>
    if ¬ ahas Stage.TEARDOWN p.2.runConditions then Except.ok o
    else add_to_running_order mgr o (Entry.runMeas p.1 [])) ord

/-- Embedding of `run_main_meas` (lines 1281-1300): every MAIN-stage
measurement, in declaration order, carrying the full current row. -/
def run_main_meas (mgr : Manager) (conditions : List (String × Val)) (ord : List Entry) : Except String (List Entry) :=
  mgr.meas.foldlM (fun o p =>
    if ¬ ahas Stage.MAIN p.2.runConditions then Except.ok o
    else add_to_running_order mgr o (Entry.runMeas p.1 conditions)) ord

/-- Embedding of `run_meas_on_setup` (lines 1305-1351), faithful to the
source: `condition_value` is the CURRENT ROW value of the condition being
set (`conditions[condition_label]`), and the stored trigger value
`meas.run_conditions[SETUP][condition_label]` is never consulted.  The two
special-value tests compare the row value itself against the literal
strings FIRST_TIME / LAST_TIME, and on a match they call
`self.cond_first_indexes` / `self.cond_last_indexes` - methods that do not
exist on the class (only `condition_first_indexes` / `condition_last_indexes`
do), so those branches raise AttributeError. -/
def run_meas_on_setup (mgr : Manager) (condition_label : String) (conditions : List (String × Val)) (ord : List Entry) : Except String (List Entry) :=
  match alookup condition_label conditions with
  | none => Except.error "KeyError: condition label not in conditions"
  | some condition_value =>
    mgr.meas.foldlM (fun o p =>
      match alookup Stage.SETUP p.2.runConditions with
      | none => Except.ok o
      | some rule =>
        if ¬ ahas condition_label rule then Except.ok o
        else if condition_value = COND_FIRST_TIME then
          Except.error "AttributeError: no attribute cond_first_indexes"
        else if condition_value = COND_LAST_TIME then
          Except.error "AttributeError: no attribute cond_last_indexes"
        else
          add_to_running_order mgr o (Entry.runMeas p.1 conditions)) ord

/-- The column of the conditions DataFrame for one condition label; a row
without that key is NaN (`none`), as in `pd.DataFrame(list_of_dicts)`. -/
def tableColumn (df : List (List (String × Val))) (label : String) : List (Option Val) :=
  df.map (fun row => alookup label row)

/-- Embedding of `condition_first_indexes` (lines 1539-1562): group the
DataFrame rows by the column value and take each group's first index.  The
groups of `groupby` partition the non-NaN rows by value, so the collected
indexes are exactly the positions whose value does not occur earlier;
`groupby` presents groups sorted by value, but only membership in the
returned list is ever used.  The method asserts the column exists. -/
def condition_first_indexes (dfCond : List (List (String × Val))) (cond_label : String) : Except String (List Nat) :=
  if ¬ dfCond.any (fun row => ahas cond_label row) then
    Except.error "AssertionError: df_conditions has no column"
  else
    let col := tableColumn dfCond cond_label
    Except.ok ((List.range col.length).filter (fun i =>
      match col.get? i with
      | some (some v) => decide ((some v) ∉ col.take i)
      | _ => false))

/-- Embedding of `condition_last_indexes` (lines 1513-1536): each group's
last index - the positions whose value does not occur later. -/
def condition_last_indexes (dfCond : List (List (String × Val))) (cond_label : String) : Except String (List Nat) :=
  if ¬ dfCond.any (fun row => ahas cond_label row) then
    Except.error "AssertionError: df_conditions has no column"
  else
    let col := tableColumn dfCond cond_label
    Except.ok ((List.range col.length).filter (fun i =>
      match col.get? i with
      | some (some v) => decide ((some v) ∉ col.drop (i+1))
      | _ => false))

/-- Embedding of `check_single_condition` (lines 1466-1509): the
measurement's trigger for this condition matches when it equals the current
value, or is FIRST_TIME and the current row index is a first-occurrence
index of the column, or is LAST_TIME and it is a last-occurrence index. -/
def check_single_condition (dfCond : List (List (String × Val))) (cond_index : Nat) (rule : List (String × Val)) (condition_label : String) (condition_value : Val) : Except String Bool :=
  match alookup condition_label rule with
  | none => Except.ok false
  | some trig =>
    if trig = condition_value then Except.ok true
    else if trig = COND_FIRST_TIME then
      match condition_first_indexes dfCond condition_label with
      | Except.error e => Except.error e
      | Except.ok inds => Except.ok (inds.contains cond_index)
    else if trig = COND_LAST_TIME then
      match condition_last_indexes dfCond condition_label with
      | Except.error e => Except.error e
      | Except.ok inds => Except.ok (inds.contains cond_index)
    else Except.ok false

/-- Embedding of `check_meas_conditions` (lines 1427-1464): an empty rule
dict means "run every time"; otherwise the measurement runs if any current
condition satisfies `check_single_condition`. -/
def check_meas_conditions (dfCond : List (List (String × Val))) (cond_index : Nat) (m : Measurement) (stage : Stage) (conditions : List (String × Val)) : Except String Bool :=
  match alookup stage m.runConditions with
  | none => Except.ok false
  | some rule =>
    if rule = [] then Except.ok true
    else do
      let conditionsMet ← conditions.mapM (fun p =>
        check_single_condition dfCond cond_index rule p.1 p.2)
      pure (conditionsMet.any id)

/-- Embedding of `run_after_meas` (lines 1354-1389): every AFTER-stage
measurement whose rule matches the current row per `check_meas_conditions`,
in declaration order. -/
def run_after_meas (mgr : Manager) (dfCond : List (List (String × Val))) (cond_index : Nat) (conditions : List (String × Val)) (ord : List Entry) : Except String (List Entry) :=
  mgr.meas.foldlM (fun o p =>
    if ¬ ahas Stage.AFTER p.2.runConditions then Except.ok o
    else do
      let b ← check_meas_conditions dfCond cond_index p.2 Stage.AFTER conditions
      if b then add_to_running_order mgr o (Entry.runMeas p.1 conditions)
      else Except.ok o) ord

/-- `itertools.product` on a list of value lists: all combinations in order,
with the first list varying slowest and the last list fastest. -/
def listProd : List (List Val) → List (List Val)
  | [] => [[]]
  | l :: ls => l.flatMap (fun x => (listProd ls).map (fun t => x :: t))

/-- Embedding of the `conditions_table` property (lines 1568-1603): the
Cartesian product of all conditions' value lists in declaration order, each
row a dict from condition name to value. -/
def conditions_table (conds : List Condition) : List (List (String × Val)) :=
  (listProd (conds.map Condition.values)).map
    (fun tup => (conds.map Condition.name).zip tup)

/-- The inner loop of `make_running_order` over `self.conditions` for one
row (lines 1135-1151): accumulate the row's conditions one by one; whenever
a condition's value differs from the previous row's (`last_cond`, whose
values start as Python `None`), emit a `CONDITION` line and then the
SETUP-stage measurements for it, carrying the conditions accumulated so far
(snapshotted by the deep copy in `add_to_running_order`). -/
def condLoop (mgr : Manager) (row lastCond : List (String × Val)) : List Condition → List (String × Val) → List Entry → Except String (List Entry)
  | [], _, ord => Except.ok ord
  | c :: cs, accum, ord =>
    match alookup c.name row with
    | none => Except.error "KeyError: condition not in current row"
    | some v =>
      let accum2 := aset c.name v accum
      match alookup c.name lastCond with
      | none => Except.error "KeyError: condition not in last_cond"
      | some lastv =>
        if v ≠ lastv then do
          let ord2 ← add_to_running_order mgr ord (Entry.setCond c.name v)
          let ord3 ← run_meas_on_setup mgr c.name accum2 ord2
          condLoop mgr row lastCond cs accum2 ord3
        else
          condLoop mgr row lastCond cs accum2 ord

/-- The row loop of `make_running_order` (lines 1127-1165): for each row of
the condition table, run the per-condition loop, then the MAIN-stage
measurements with the full row, then the AFTER-stage measurements, and
carry the row forward as `last_cond`. -/
def rowsLoop (mgr : Manager) (dfCond : List (List (String × Val))) : Nat → List (List (String × Val)) → List (String × Val) → List Entry → Except String (List Entry)
  | _, [], _, ord => Except.ok ord
  | idx, row :: rest, lastCond, ord => do
    let ord1 ← condLoop mgr row lastCond mgr.conditions [] ord
    let ord2 ← run_main_meas mgr row ord1
    let ord3 ← run_after_meas mgr dfCond idx row ord2
    rowsLoop mgr dfCond (idx + 1) rest row ord3

/-- Embedding of `make_running_order` (lines 1056-1172).  Source quirks kept
faithfully: a falsy `conditions` argument (None or the empty list) selects
the `conditions_table` property; the supplied override becomes
`df_conditions` (used by the first/last-occurrence checks) but the row loop
iterates `self.conditions_table` regardless; and `last_cond` is initialised
from `self.conditions_table[0]` with `None` values, an IndexError when the
product table is empty. -/
def make_running_order (mgr : Manager) (conditions : Option (List (List (String × Val)))) : Except String (List Entry) :=
  let table := conditions_table mgr.conditions
  let dfCond := match conditions with
    | none => table
    | some [] => table
    | some t => t
  do
    let ord0 ← run_meas_on_startup mgr []
    match table with
    | [] => Except.error "IndexError: conditions_table is empty"
    | row0 :: _ =>
      let lastCond0 := row0.map (fun p => (p.1, Val.noneV))
      let ordN ← rowsLoop mgr dfCond 0 table lastCond0 ord0
      run_meas_on_teardown mgr ordN

/-- The mutable state of an `AbstractMeasurement`: its result store, the
snapshot of conditions of the current run, and the last recorded error.
`procRan` is instrumentation recording whether `process()` was entered
during the last `run()` call. -/
structure MeasState where
  dsResults         : Option Store
  currentConditions : List (String × Val)
  lastError         : String
  procRan           : Bool
  deriving DecidableEq, Repr

/-- Execute the steps of a measurement callback against the result store:
writes go through `store_data_var` with the current conditions; the first
raised exception (an explicit raise, or an error thrown by a write) stops
execution and is returned, leaving every earlier write in place. -/
def runActions (conds : List (String × Val)) : List Action → Store → Store × Option String
  | [], st => (st, none)
  | Action.store n v :: rest, st =>
    match store_data_var n v conds st with
    | Except.ok st2 => runActions conds rest st2
    | Except.error e => (st, some e)
  | Action.raiseErr msg :: _, st => (st, some msg)

/-- Embedding of `AbstractMeasurement.run` (lines 2007-2087): a disabled
measurement is a no-op success; otherwise an empty conditions dict is
replaced by the default, the conditions are pushed into the store by
`set_conditions` (whose ValueError is NOT caught - it propagates to the
caller) and retained as the current snapshot; `meas_sequence` runs inside
try/except - an exception is recorded in `last_error` and the call returns
failure without running `process()` and without rolling back the store;
only on sequence success does `process()` run, under the same discipline. -/
def Measurement.run (m : Measurement) (conditions : List (String × PyVal)) (st : MeasState) : Except String (Bool × MeasState) :=
  if ¬ m.enable then Except.ok (true, st)
  else
    let conds := if conditions = [] then [( "default", PyVal.scalar (Val.intV 0))] else conditions
    match set_conditions conds st.dsResults with
    | Except.error e => Except.error e
    | Except.ok ds1 =>
      let cur := conds.map (fun p => (p.1, p.2.toVal))
      let seqOut := runActions cur m.seqActs ds1
      match seqOut.2 with
      | some e =>
        Except.ok (false,
          { dsResults := some seqOut.1, currentConditions := cur, lastError := e, procRan := false })
      | none =>
        let procOut := runActions cur m.procActs seqOut.1
        match procOut.2 with
        | some e =>
          Except.ok (false,
            { dsResults := some procOut.1, currentConditions := cur, lastError := e, procRan := true })
        | none =>
          Except.ok (true,
            { dsResults := some procOut.1, currentConditions := cur, lastError := "", procRan := true })

/-- Outcome of walking the running order inside `AbstractTestManager.run`:
either every line executed (`done`) or an exception aborted the walk
(`aborted`), carrying the per-measurement states, the condition log and
the lines actually executed. -/
inductive ExecOutcome where
  | done (measStates : List (String × MeasState)) (currentCond : List (String × Val)) (executed : List Entry)
  | aborted (measStates : List (String × MeasState)) (currentCond : List (String × Val)) (executed : List Entry) (err : String)
  deriving DecidableEq, Repr

/-- The main loop of `AbstractTestManager.run` (lines 1017-1029): a
`CONDITION` line sets the setpoint (an external effect) and updates the
current-conditions log; a `MEASUREMENT` line runs the measurement and
asserts its success flag - a `False` flag or an exception from `run`
aborts the walk (it is caught by the surrounding try in `run`). -/
def execEntries (mgr : Manager) : List Entry → List (String × MeasState) → List (String × Val) → List Entry → ExecOutcome
  | [], ms, cur, ex => ExecOutcome.done ms cur ex
  | Entry.setCond label v :: rest, ms, cur, ex =>
    execEntries mgr rest ms (aset label v cur) (ex ++ [Entry.setCond label v])
  | Entry.runMeas label args :: rest, ms, cur, ex =>
    match alookup label mgr.meas, alookup label ms with
    | some m, some st =>
      match m.run (args.map (fun p => (p.1, PyVal.scalar p.2))) st with
      | Except.error e =>
        ExecOutcome.aborted ms cur (ex ++ [Entry.runMeas label args]) e
      | Except.ok (ok, st2) =>
        let ms2 := aset label st2 ms
        if ok then execEntries mgr rest ms2 cur (ex ++ [Entry.runMeas label args])
        else ExecOutcome.aborted ms2 cur (ex ++ [Entry.runMeas label args]) "AssertionError: Measurement failed"
    | _, _ => ExecOutcome.aborted ms cur ex "KeyError: unknown measurement label"

/-- Embedding of `run_meas_on_error` (lines 1394-1421): every ERROR-stage
measurement is run in declaration order with the current conditions, each
inside its own try/except, so an exception or a failure flag from one is
logged and does not stop the others.  Returns the updated measurement
states and the labels attempted, in order. -/
def run_meas_on_error (mgr : Manager) (conditions : List (String × Val)) (ms : List (String × MeasState)) : List (String × MeasState) × List String :=
  mgr.meas.foldl (fun acc p =>
    if ¬ ahas Stage.ERROR p.2.runConditions then acc
    else
      match alookup p.1 acc.1 with
      | none => (acc.1, acc.2 ++ [p.1])
      | some st =>
        match p.2.run (conditions.map (fun q => (q.1, PyVal.scalar q.2))) st with
        | Except.error _ => (acc.1, acc.2 ++ [p.1])
        | Except.ok (_, st2) => (aset p.1 st2 acc.1, acc.2 ++ [p.1]))
    (ms, [])

/-- Embedding of `get_results` (lines 1771-1806): collect, in declaration
order, the result store of every measurement that has one and is enabled,
merge them with `xr.merge`, then inject each `information` entry as a
length-1 coordinate when that assignment succeeds (an existing dimension
of size greater than one cannot be replaced; the fallback stores it as a
Dataset attribute, outside the Store model). -/
def get_results (mgr : Manager) (ms : List (String × MeasState)) : Except String Store := do
  let dsList := mgr.meas.foldl (fun acc p =>
    match alookup p.1 ms with
    | none => acc
    | some st =>
      match st.dsResults with
      | none => acc
      | some d => if p.2.enable then acc ++ [d] else acc) []
  let merged ← xrMergeList dsList
  Except.ok (mgr.information.foldl (fun d p =>
    match alookup p.1 d.coords with
    | none => ⟨d.coords ++ [(p.1, [p.2])], d.vars⟩
    | some vs => if vs.length = 1 then ⟨aset p.1 [p.2] d.coords, d.vars⟩ else d) merged)

/-- The state a `Manager.run` call acts on: the components' result stores
and the manager's aggregate store, plus instrumentation: the lines executed
(`executed`), the ERROR-stage measurements attempted (`errorRan`) and flags
for the `pre_process` / `post_process` hooks of this call. -/
structure TMState where
  measStates : List (String × MeasState)
  condStores : List (String × Option Store)
  dsResults  : Option Store
  lastError  : String
  preRan     : Bool
  postRan    : Bool
  executed   : List Entry
  errorRan   : List String
  deriving DecidableEq, Repr

/-- Embedding of `clear_all_results` (lines 1748-1767): set every
measurement's and every condition's `ds_results` to `None`; the manager's
own `ds_results` is not touched. -/
def clear_all_results (st : TMState) : TMState :=
  { st with
    measStates := st.measStates.map (fun p => (p.1, { p.2 with dsResults := none })),
    condStores := st.condStores.map (fun p => (p.1, none)) }

/-- Embedding of `AbstractTestManager.run` (lines 966-1053): clear all
component stores, build the running order, and return immediately when it
is empty; otherwise initialise the condition log from the first table row
(values `None`), run `pre_process`, walk the running order, and on success
run `post_process`; an exception anywhere in that try block is recorded in
`last_error` and triggers the ERROR-stage measurements; the `finally`
aggregation `get_results` runs in both branches and its own exception
propagates.  The `pre_process`/`post_process` hooks default to `pass` and
are modelled by their instrumentation flags; condition setpoint writes are
external effects with no modelled failure. -/
def Manager.run (mgr : Manager) (conditions : Option (List (List (String × Val)))) (st : TMState) : Except String TMState :=
  let st0 := { clear_all_results st with
               executed := [], errorRan := [], preRan := false, postRan := false }
  match make_running_order mgr conditions with
  | Except.error e => Except.error e
  | Except.ok order =>
    if order = [] then Except.ok st0
    else
      match conditions_table mgr.conditions with
      | [] => Except.error "IndexError: conditions_table is empty"
      | row0 :: _ =>
        let cur0 := row0.map (fun p => (p.1, Val.noneV))
        let st1 := { st0 with lastError := "", preRan := true }
        match execEntries mgr order st1.measStates cur0 [] with
        | ExecOutcome.done ms2 _ ex =>
          match get_results mgr ms2 with
          | Except.error e2 => Except.error e2
          | Except.ok agg =>
            Except.ok { st1 with measStates := ms2, executed := ex, postRan := true,
                                 dsResults := some agg }
        | ExecOutcome.aborted ms2 cur2 ex e =>
          let errOut := run_meas_on_error mgr cur2 ms2
          match get_results mgr errOut.1 with
          | Except.error e2 => Except.error e2
          | Except.ok agg =>
            Except.ok { st1 with measStates := errOut.1, executed := ex, errorRan := errOut.2,
                                 lastError := e, dsResults := some agg }

/-- A component (measurement or condition) as the service registry sees it:
its label, the names of its methods tagged `@service` (as enumerated by
`inspect.getmembers`, alphabetically), and its own `services` table.
A callable is modelled by the pair (owner label, method name). -/
structure SvcComponent where
  label    : String
  tagged   : List String
  services : List (String × (String × String))
  deriving DecidableEq, Repr

/-- A test manager as the service registry sees it. -/
structure SvcManager where
  meas       : List SvcComponent
  conditions : List SvcComponent
  services   : List (String × (String × String))
  deriving DecidableEq, Repr

/-- Embedding of `get_services_from_object` (lines 1676-1709): each tagged
method is entered into the manager's table under its name, later
registrations overwriting earlier ones. -/
def get_services_from_object (table : List (String × (String × String))) (obj : SvcComponent) : List (String × (String × String)) :=
  obj.tagged.foldl (fun t mname => aset mname (obj.label, mname) t) table

/-- Embedding of `get_services` (lines 1713-1738), faithful to the source:
after scanning all measurements and then all conditions, the linking loop
assigns the finished table to every measurement, but the body of the
condition loop is `self.services = self.services` - a self-assignment on
the manager - so the conditions' own `services` tables are left untouched. -/
def get_services (mgr : SvcManager) : SvcManager :=
  let s1 := mgr.meas.foldl get_services_from_object mgr.services
  let s2 := mgr.conditions.foldl get_services_from_object s1
  { meas := mgr.meas.map (fun o => { o with services := s2 }),
    conditions := mgr.conditions,
    services := s2 }

/-! Concrete configurations used to instantiate the theorems below. -/

/-- A manager with one condition A = [1, 2] and one SETUP-stage measurement
whose trigger for A is the exact value 2. -/
def mgrExactTrigger : Manager :=
  { conditions := [⟨ "A", [Val.intV 1, Val.intV 2]⟩],
    meas := [( "M", { enable := true,
                      runConditions := [(Stage.SETUP, [( "A", Val.intV 2)])],
                      seqActs := [], procActs := [] })],
    information := [] }

/-- A manager with conditions A = [1, 2], B = [10, 20] and one SETUP-stage
measurement registered on B with the FIRST_TIME trigger. -/
def mgrFirstTimeTrigger : Manager :=
  { conditions := [⟨ "A", [Val.intV 1, Val.intV 2]⟩, ⟨ "B", [Val.intV 10, Val.intV 20]⟩],
    meas := [( "M", { enable := true,
                      runConditions := [(Stage.SETUP, [( "B", COND_FIRST_TIME)])],
                      seqActs := [], procActs := [] })],
    information := [] }

/-- A manager with conditions A = [1, 2], B = [10, 20] and one SETUP-stage
measurement registered on both A and B with the default trigger (None,
"every change"). -/
def mgrSetupAB : Manager :=
  { conditions := [⟨ "A", [Val.intV 1, Val.intV 2]⟩, ⟨ "B", [Val.intV 10, Val.intV 20]⟩],
    meas := [( "M", { enable := true,
                      runConditions := [(Stage.SETUP, [( "A", Val.noneV), ( "B", Val.noneV)])],
                      seqActs := [], procActs := [] })],
    information := [] }

/-- A store with coordinate x = [1] and a variable a over x written at 1. -/
def storeX1 : Store :=
  ⟨[( "x", [Val.intV 1])], [( "a", ⟨[ "x"], [([Val.intV 1], Val.intV 10)]⟩)]⟩

/-- A store with coordinate x = [2] and a variable b over x written at 2. -/
def storeX2 : Store :=
  ⟨[( "x", [Val.intV 2])], [( "b", ⟨[ "x"], [([Val.intV 2], Val.intV 20)]⟩)]⟩

/-- A fresh measurement state: no results yet. -/
def freshMeasState : MeasState :=
  { dsResults := none, currentConditions := [], lastError := "", procRan := false }

/-- A measurement whose sequence writes v = 1, then raises, then would write
w = 2; its post-process would write p = 3. -/
def measSeqRaises : Measurement :=
  { enable := true, runConditions := [(Stage.MAIN, [])],
    seqActs := [Action.store "v" (Val.intV 1), Action.raiseErr "boom",
                Action.store "w" (Val.intV 2)],
    procActs := [Action.store "p" (Val.intV 3)] }

/-- A MAIN-stage measurement that writes m1 = 7 and succeeds. -/
def measMainOk : Measurement :=
  { enable := true, runConditions := [(Stage.MAIN, [])],
    seqActs := [Action.store "m1" (Val.intV 7)], procActs := [] }

/-- A MAIN-stage measurement whose sequence raises. -/
def measMainBad : Measurement :=
  { enable := true, runConditions := [(Stage.MAIN, [])],
    seqActs := [Action.raiseErr "boom"], procActs := [] }

/-- An ERROR-stage measurement that writes e1 = 8 and succeeds. -/
def measErrOk : Measurement :=
  { enable := true, runConditions := [(Stage.ERROR, [])],
    seqActs := [Action.store "e1" (Val.intV 8)], procActs := [] }

/-- An ERROR-stage measurement whose sequence raises. -/
def measErrBad : Measurement :=
  { enable := true, runConditions := [(Stage.ERROR, [])],
    seqActs := [Action.raiseErr "ebomb"], procActs := [] }

/-- A manager whose second MAIN measurement fails, with a third MAIN
measurement after it and two ERROR-stage measurements, the first of which
succeeds and the second of which raises. -/
def mgrAbort : Manager :=
  { conditions := [⟨ "A", [Val.intV 1]⟩],
    meas := [( "M1", measMainOk), ( "M2", measMainBad), ( "M3", measMainOk),
             ( "E1", measErrOk), ( "E2", measErrBad)],
    information := [] }

/-- The initial manager state matching `mgrAbort`. -/
def stAbort : TMState :=
  { measStates := [( "M1", freshMeasState), ( "M2", freshMeasState),
                   ( "M3", freshMeasState), ( "E1", freshMeasState),
                   ( "E2", freshMeasState)],
    condStores := [( "A", none)], dsResults := none, lastError := "",
    preRan := false, postRan := false, executed := [], errorRan := [] }

/-- The measurement states of `mgrAbort` after the successful prefix of its
running order (SetCondition A=1 and M1) has executed. -/
def msAfterPre : List (String × MeasState) :=
  [( "M1", { dsResults := some ⟨[( "A", [Val.intV 1])],
               [( "m1", ⟨[ "A"], [([Val.intV 1], Val.intV 7)]⟩)]⟩,
             currentConditions := [( "A", Val.intV 1)],
             lastError := "", procRan := true }),
   ( "M2", freshMeasState), ( "M3", freshMeasState),
   ( "E1", freshMeasState), ( "E2", freshMeasState)]

/-- The state of M2 after its failed run at A = 1: its store holds the
pushed condition coordinate, the raise is recorded, process never ran. -/
def mstM2Failed : MeasState :=
  { dsResults := some ⟨[( "A", [Val.intV 1])], []⟩,
    currentConditions := [( "A", Val.intV 1)],
    lastError := "boom", procRan := false }

/-- The aggregate store of the aborted `mgrAbort` run: m1 from the prefix
and e1 from the ERROR stage, merged over the shared coordinate A. -/
def aggAbort : Store :=
  ⟨[( "A", [Val.intV 1])],
   [( "m1", ⟨[ "A"], [([Val.intV 1], Val.intV 7)]⟩),
    ( "e1", ⟨[ "A"], [([Val.intV 1], Val.intV 8)]⟩)]⟩

/-- A manager with no conditions and no measurements: its running order is
empty. -/
def mgrEmpty : Manager := { conditions := [], meas := [], information := [] }

/-- A manager state carrying a previous aggregate result and a previous
error, to observe what an aborted-early run leaves untouched. -/
def stPrev : TMState :=
  { measStates := [], condStores := [( "C", some storeX1)],
    dsResults := some storeX1, lastError := "old",
    preRan := true, postRan := true, executed := [], errorRan := [] }

/-- A service-registry manager with one measurement exposing one tagged
service and one condition with none. -/
def svcMgrEx : SvcManager :=
  { meas := [⟨ "M", [ "my_service"], []⟩],
    conditions := [⟨ "C", [], []⟩],
    services := [] }

/-- A store with an existing sweep coordinate swp = [1, 2]. -/
def storeSweep : Store := ⟨[( "swp", [Val.intV 1, Val.intV 2])], []⟩

/-! Helper lemmas about association lists and the executable operations. -/

theorem alookup_append {β : Type} (k : String) (l1 l2 : List (String × β)) :
    alookup k (l1 ++ l2) = (alookup k l1).orElse (fun _ => alookup k l2) := by
  induction l1 with
  | nil => simp [alookup]
  | cons p rest ih =>
    by_cases h : p.1 = k
    · simp [alookup, h, Option.orElse]
    · simp [alookup, h, ih]

theorem alookup_eq_none {β : Type} (k : String) (l : List (String × β)) :
    alookup k l = none ↔ k ∉ l.map Prod.fst := by
  induction l with
  | nil => simp [alookup]
  | cons p rest ih =>
    by_cases h : p.1 = k
    · simp [alookup, h]
    · simp only [alookup, if_neg h, List.map_cons, List.mem_cons, ih]
      constructor
      · intro hn hor
        rcases hor with h1 | h2
        · exact h h1.symm
        · exact hn h2
      · intro hn h2
        exact hn (Or.inr h2)

/-- C2: the condition table is the Cartesian product of the conditions' value
lists in declared order - the first-declared condition varies slowest (its
whole sub-table of later conditions is enumerated before its value
advances) and the last fastest - and for A = [1, 2] declared first and
B = [10, 20] declared second the rows are (A=1,B=10), (A=1,B=20),
(A=2,B=10), (A=2,B=20) in that order. -/
theorem conditions_table_cartesian :
    (∀ (c : Condition) (cs : List Condition),
      conditions_table (c :: cs) =
        c.values.flatMap (fun v => (conditions_table cs).map (fun row => (c.name, v) :: row)))
    ∧ conditions_table [] = [[]]
    ∧ conditions_table
        [⟨ "A", [Val.intV 1, Val.intV 2]⟩, ⟨ "B", [Val.intV 10, Val.intV 20]⟩] =
      [[( "A", Val.intV 1), ( "B", Val.intV 10)],
       [( "A", Val.intV 1), ( "B", Val.intV 20)],
       [( "A", Val.intV 2), ( "B", Val.intV 10)],
       [( "A", Val.intV 2), ( "B", Val.intV 20)]] := by
  refine ⟨?_, rfl, by decide⟩
  intro c cs
  simp only [conditions_table, listProd, List.map_cons]
  rw [List.map_flatMap]
  congr 1
  funext v
  simp [List.map_map, Function.comp, List.zip_cons_cons]

/-- C1 (divergence of the code from the claim, evaluated at the failing
inputs): with condition A = [1, 2] and a SETUP-stage measurement M whose
trigger for A is the exact value 2, the claim emits RunMeasurement(M) only
after SetCondition(A, 2), but `run_meas_on_setup` never consults the stored
trigger, so M is also emitted after SetCondition(A, 1); and with a
measurement registered on B = [10, 20] (under A = [1, 2]) with FIRST_TIME,
M is emitted at every change of B, including rows 2 and 3 where B takes 10
and 20 for the second time, which are not first-occurrence indexes. -/
theorem run_meas_on_setup_trigger_divergence :
    make_running_order mgrExactTrigger none =
      Except.ok [Entry.setCond "A" (Val.intV 1),
                 Entry.runMeas "M" [( "A", Val.intV 1)],
                 Entry.setCond "A" (Val.intV 2),
                 Entry.runMeas "M" [( "A", Val.intV 2)]]
    ∧ make_running_order mgrFirstTimeTrigger none =
      Except.ok [Entry.setCond "A" (Val.intV 1),
                 Entry.setCond "B" (Val.intV 10),
                 Entry.runMeas "M" [( "A", Val.intV 1), ( "B", Val.intV 10)],
                 Entry.setCond "B" (Val.intV 20),
                 Entry.runMeas "M" [( "A", Val.intV 1), ( "B", Val.intV 20)],
                 Entry.setCond "A" (Val.intV 2),
                 Entry.setCond "B" (Val.intV 10),
                 Entry.runMeas "M" [( "A", Val.intV 2), ( "B", Val.intV 10)],
                 Entry.setCond "B" (Val.intV 20),
                 Entry.runMeas "M" [( "A", Val.intV 2), ( "B", Val.intV 20)]]
    ∧ condition_first_indexes
        (conditions_table mgrFirstTimeTrigger.conditions) "B" = Except.ok [0, 1] := by
  refine ⟨rfl, rfl, rfl⟩

/-- C6 (counterexample): a conditions map whose single value is the string
scalar "fast" is rejected by `set_conditions`, because the scalar test is
`hasattr(value, "__len__")` and Python strings have a length - although
the claim says every map of numeric, string or boolean scalars succeeds. -/
theorem set_conditions_rejects_string_scalar :
    set_conditions [( "mode", PyVal.scalar (Val.strV "fast"))] none =
      Except.error "ValueError: Conditions must be single values" := rfl

/-- C6 (amended): `set_conditions` succeeds exactly when no supplied value
has `__len__` - it rejects every sequence and also every string scalar, and
accepts every map of numeric, boolean or None scalars. -/
theorem set_conditions_ok_iff_no_len :
    ∀ (conditions : List (String × PyVal)) (ds : Option Store),
      (set_conditions conditions ds).isOk =
        conditions.all (fun p => !hasLen p.2) := by
  intro conditions ds
  by_cases h : conditions.filter (fun p => hasLen p.2) = []
  · have hall : conditions.all (fun p => !hasLen p.2) = true := by
      rw [List.all_eq_true]
      intro p hp
      have := List.filter_eq_nil_iff.mp h p hp
      simpa using this
    rw [hall]
    cases ds with
    | none => simp [set_conditions, h, Except.isOk, Except.toBool]
    | some d => simp [set_conditions, h, xrMerge, mergeVars, List.foldlM, Except.isOk,
                      Except.toBool, pure, Except.pure]
  · have hall : conditions.all (fun p => !hasLen p.2) = false := by
      rcases List.exists_cons_of_ne_nil h with ⟨p, rest, hcons⟩
      have hp : p ∈ conditions.filter (fun q => hasLen q.2) := by
        rw [hcons]
        exact List.mem_cons_self p rest
      rw [List.mem_filter] at hp
      rw [List.all_eq_false]
      exact ⟨p, hp.1, by simp [hp.2]⟩
    rw [hall]
    simp [set_conditions, h, Except.isOk, Except.toBool]

/-- C7 (divergence of the code from the claim, evaluated at the failing
input): `get_services` hands the finished service table to every
measurement, but the body of its condition loop is the no-op
`self.services = self.services`, so a condition keeps its own (empty)
table: with one measurement M exposing a tagged method my_service and one
condition C, the manager and M hold the one-entry table while C holds the
empty one - not the manager's table as the claim states.  The first
conjunct is the general fact: the condition objects are returned exactly
as they went in. -/
theorem get_services_skips_conditions :
    (∀ mgr : SvcManager, (get_services mgr).conditions = mgr.conditions)
    ∧ (get_services svcMgrEx).services = [( "my_service", ("M", "my_service"))]
    ∧ (get_services svcMgrEx).meas =
        [⟨ "M", [ "my_service"], [( "my_service", ("M", "my_service"))]⟩]
    ∧ (get_services svcMgrEx).conditions = [⟨ "C", [], []⟩]
    ∧ (SvcComponent.mk "C" [] []).services ≠ (get_services svcMgrEx).services := by
  refine ⟨fun mgr => rfl, by decide, by decide, by decide, by decide⟩

/-- C8: given an existing coordinate, a second `store_coords` call with the
identical value list succeeds and leaves the store unchanged (idempotent),
and a call with any different value list - different length or different
values - raises a ValueError. -/
theorem store_coords_idempotent_or_conflict :
    ∀ (d : Store) (name : String) (vs values : List Val),
      alookup name d.coords = some vs →
      (store_coords name vs (some d) = Except.ok d
        ∧ (vs ≠ values → ∃ e, store_coords name values (some d) = Except.error e)) := by
  intro d name vs values h
  have hhas : ahas name d.coords = true := by
    simp [ahas, h]
  constructor
  · simp [store_coords, hhas, h]
  · intro hne
    by_cases hlen : vs.length ≠ values.length
    · exact ⟨ "ValueError: coordinate has different length to existing values",
        by simp [store_coords, hhas, h, hlen]⟩
    · refine ⟨ "ValueError: coordinate has different values than what is being entered", ?_⟩
      simp at hlen
      simp [store_coords, hhas, h, hlen, hne]

/-- Witness for C8 at a concrete store: the sweep coordinate swp = [1, 2]
already exists; re-declaring it with [1, 2] returns the store unchanged and
re-declaring it with [1, 3] errors. -/
theorem store_coords_idempotent_or_conflict_witness :
    store_coords "swp" [Val.intV 1, Val.intV 2] (some storeSweep) = Except.ok storeSweep
    ∧ ∃ e, store_coords "swp" [Val.intV 1, Val.intV 3] (some storeSweep) = Except.error e := by
  have h := store_coords_idempotent_or_conflict storeSweep "swp"
    [Val.intV 1, Val.intV 2] [Val.intV 1, Val.intV 3] (by decide)
  exact ⟨h.1, h.2 (by decide)⟩

theorem alookup_map_union (c1 c2 : List (String × List Val)) (n : String) :
    alookup n (c1.map (fun p =>
      match alookup p.1 c2 with
      | some vs2 => (p.1, unionVals p.2 vs2)
      | none => p)) =
    (alookup n c1).map (fun vs =>
      match alookup n c2 with
      | some vs2 => unionVals vs vs2
      | none => vs) := by
  induction c1 with
  | nil => simp [alookup]
  | cons p rest ih =>
    obtain ⟨pk, pv⟩ := p
    by_cases h : pk = n
    · subst h
      cases hc : alookup pk c2 with
      | some vs2 => simp [alookup, hc]
      | none => simp [alookup, hc]
    · cases hc : alookup pk c2 with
      | some vs2 => simp [alookup, h, hc, ih]
      | none => simp [alookup, h, hc, ih]

theorem alookup_filter_true {β : Type} (n : String) (l : List (String × β)) (q : String × β → Bool)
    (hq : ∀ v, q (n, v) = true) :
    alookup n (l.filter q) = alookup n l := by
  induction l with
  | nil => rfl
  | cons p rest ih =>
    obtain ⟨pk, pv⟩ := p
    by_cases h : pk = n
    · subst h
      simp [List.filter_cons, hq pv, alookup]
    · cases hqp : q (pk, pv) with
      | true => simp [List.filter_cons, hqp, alookup, h, ih]
      | false => simp [List.filter_cons, hqp, alookup, h, ih]

theorem alookup_filter_false {β : Type} (n : String) (l : List (String × β)) (q : String × β → Bool)
    (hq : ∀ v, q (n, v) = false) :
    alookup n (l.filter q) = none := by
  induction l with
  | nil => rfl
  | cons p rest ih =>
    obtain ⟨pk, pv⟩ := p
    by_cases h : pk = n
    · subst h
      simp [List.filter_cons, hq pv, ih]
    · cases hqp : q (pk, pv) with
      | true => simp [List.filter_cons, hqp, alookup, h, ih]
      | false => simp [List.filter_cons, hqp, alookup, h, ih]

theorem mergeCoords_lookup (c1 c2 : List (String × List Val)) (n : String) :
    alookup n (mergeCoords c1 c2) =
      match alookup n c1, alookup n c2 with
      | some a, some b => some (unionVals a b)
      | some a, none => some a
      | none, some b => some b
      | none, none => none := by
  unfold mergeCoords
  rw [alookup_append, alookup_map_union]
  cases h1 : alookup n c1 with
  | some a =>
    cases h2 : alookup n c2 with
    | some b => simp [Option.orElse, h2]
    | none => simp [Option.orElse, h2]
  | none =>
    have hnot : ahas n c1 = false := by simp [ahas, h1]
    cases h2 : alookup n c2 with
    | some b =>
      rw [show alookup n (c2.filter (fun p => ! ahas p.1 c1)) = alookup n c2 from
        alookup_filter_true n c2 _ (fun v => by simp [hnot])]
      simp [Option.orElse, h2]
    | none =>
      rw [show alookup n (c2.filter (fun p => ! ahas p.1 c1)) = alookup n c2 from
        alookup_filter_true n c2 _ (fun v => by simp [hnot])]
      simp [Option.orElse, h2]

theorem mergeVars_disjoint : ∀ (v2 v1 : List (String × DataVar)),
    (∀ p ∈ v2, alookup p.1 v1 = none) → (v2.map Prod.fst).Nodup →
    mergeVars v1 v2 = Except.ok (v1 ++ v2)
  | [], v1, _, _ => by simp [mergeVars, List.foldlM, pure, Except.pure]
  | p :: rest, v1, hdis, hnd => by
    have hp : alookup p.1 v1 = none := hdis p (List.mem_cons_self p rest)
    have step : mergeVarInto v1 p = Except.ok (v1 ++ [p]) := by
      simp [mergeVarInto, hp]
    have hnd' : (p.1 :: rest.map Prod.fst).Nodup := by simpa using hnd
    have hhead : p.1 ∉ rest.map Prod.fst := (List.nodup_cons.mp hnd').1
    have hnd2 : (rest.map Prod.fst).Nodup := (List.nodup_cons.mp hnd').2
    have hdis2 : ∀ q ∈ rest, alookup q.1 (v1 ++ [p]) = none := by
      intro q hq
      rw [alookup_append]
      rw [hdis q (List.mem_cons_of_mem p hq)]
      have hne : p.1 ≠ q.1 := by
        intro he
        exact hhead (he ▸ List.mem_map_of_mem Prod.fst hq)
      simp [alookup, Option.orElse, hne]
    have ih := mergeVars_disjoint rest (v1 ++ [p]) hdis2 hnd2
    calc mergeVars v1 (p :: rest)
        = mergeVars (v1 ++ [p]) rest := by
          simp only [mergeVars, List.foldlM_cons, step]
          rfl
      _ = Except.ok ((v1 ++ [p]) ++ rest) := ih
      _ = Except.ok (v1 ++ p :: rest) := by simp

/-- C3 (counterexample): two stores sharing the coordinate x with differing
value lists ([1] and [2], each carrying its own variable) are merged by the
aggregation merge without any error: the result is the outer-join union
x = [1, 2] with both variables adopted, each NaN (cell-less) at the value
it was never written at - the claim says this merge raises. -/
theorem merge_differing_coord_no_raise :
    alookup "x" storeX1.coords ≠ alookup "x" storeX2.coords
    ∧ xrMergeList [storeX1, storeX2] =
        Except.ok ⟨[( "x", [Val.intV 1, Val.intV 2])],
                   [( "a", ⟨[ "x"], [([Val.intV 1], Val.intV 10)]⟩),
                    ( "b", ⟨[ "x"], [([Val.intV 2], Val.intV 20)]⟩)]⟩ := ⟨by decide, rfl⟩

/-- C3 (amended): for any two stores with disjoint variable names, the merge
used by the TestManager aggregation succeeds - also when the stores share
coordinate names with differing value lists.  Every shared coordinate
becomes the outer-join union of the two value lists, a coordinate present
on one side is adopted as-is, and the variables are the concatenation of
both sides with their cells unchanged, so each variable holds the missing
sentinel (no written cell) at every coordinate combination its original
store lacked. -/
theorem merge_outer_join_union :
    ∀ s1 s2 : Store,
      (∀ p ∈ s2.vars, alookup p.1 s1.vars = none) →
      (s2.vars.map Prod.fst).Nodup →
      ∃ m, xrMerge s1 s2 = Except.ok m
        ∧ m.vars = s1.vars ++ s2.vars
        ∧ ∀ n, alookup n m.coords =
            match alookup n s1.coords, alookup n s2.coords with
            | some a, some b => some (unionVals a b)
            | some a, none => some a
            | none, some b => some b
            | none, none => none := by
  intro s1 s2 hdis hnd
  refine ⟨⟨mergeCoords s1.coords s2.coords, s1.vars ++ s2.vars⟩, ?_, rfl, ?_⟩
  · simp [xrMerge, mergeVars_disjoint s2.vars s1.vars hdis hnd]
  · intro n
    exact mergeCoords_lookup s1.coords s2.coords n

/-- Witness for C3 (amended) at the concrete stores of the counterexample:
the hypotheses (disjoint variable names a and b) hold and the merge
produces the union store. -/
theorem merge_outer_join_union_witness :
    ∃ m, xrMerge storeX1 storeX2 = Except.ok m
      ∧ m.vars = storeX1.vars ++ storeX2.vars
      ∧ ∀ n, alookup n m.coords =
          match alookup n storeX1.coords, alookup n storeX2.coords with
          | some a, some b => some (unionVals a b)
          | some a, none => some a
          | none, some b => some b
          | none, none => none :=
  merge_outer_join_union storeX1 storeX2 (by decide) (by decide)

theorem runActions_append (conds : List (String × Val)) :
    ∀ (l1 l2 : List Action) (st : Store),
      runActions conds (l1 ++ l2) st =
        match runActions conds l1 st with
        | (st2, none) => runActions conds l2 st2
        | (st2, some e) => (st2, some e) := by
  intro l1
  induction l1 with
  | nil =>
    intro l2 st
    simp [runActions]
  | cons a rest ih =>
    intro l2 st
    cases a with
    | store n v =>
      simp only [List.cons_append, runActions]
      cases h : store_data_var n v conds st with
      | ok st2 => simp [h, ih]
      | error e => simp [h]
    | raiseErr msg => simp [runActions]

/-- C5: for an enabled measurement run at a nonempty conditions map, (a) if
the sequence callback raises after a prefix of successful writes, `run`
returns failure with the exception recorded as the last error, the
post-process callback does not run, and the result store holds exactly the
conditions plus the writes made before the raise (no rollback); (b) the
post-process callback runs only after a fully successful sequence, and a
raise inside it is caught, recorded and turned into the same failure
return, again keeping all earlier writes. -/
theorem meas_run_failure_contract :
    (∀ (m : Measurement) (conds : List (String × PyVal)) (st : MeasState)
       (pre rest : List Action) (msg : String) (ds1 ds2 : Store),
      m.enable = true →
      conds ≠ [] →
      m.seqActs = pre ++ Action.raiseErr msg :: rest →
      set_conditions conds st.dsResults = Except.ok ds1 →
      runActions (conds.map (fun p => (p.1, p.2.toVal))) pre ds1 = (ds2, none) →
      m.run conds st = Except.ok (false,
        { dsResults := some ds2,
          currentConditions := conds.map (fun p => (p.1, p.2.toVal)),
          lastError := msg, procRan := false }))
    ∧ (∀ (m : Measurement) (conds : List (String × PyVal)) (st : MeasState)
       (ppre prest : List Action) (pmsg : String) (ds1 ds2 ds3 : Store),
      m.enable = true →
      conds ≠ [] →
      set_conditions conds st.dsResults = Except.ok ds1 →
      runActions (conds.map (fun p => (p.1, p.2.toVal))) m.seqActs ds1 = (ds2, none) →
      m.procActs = ppre ++ Action.raiseErr pmsg :: prest →
      runActions (conds.map (fun p => (p.1, p.2.toVal))) ppre ds2 = (ds3, none) →
      m.run conds st = Except.ok (false,
        { dsResults := some ds3,
          currentConditions := conds.map (fun p => (p.1, p.2.toVal)),
          lastError := pmsg, procRan := true })) := by
  constructor
  · intro m conds st pre rest msg ds1 ds2 hen hne hseq hset hpre
    have hseqrun : runActions (conds.map (fun p => (p.1, p.2.toVal))) m.seqActs ds1
        = (ds2, some msg) := by
      rw [hseq, runActions_append, hpre]
      simp [runActions]
    simp [Measurement.run, hen, hne, hset, hseqrun]
  · intro m conds st ppre prest pmsg ds1 ds2 ds3 hen hne hset hseqrun hproc hppre
    have hprocrun : runActions (conds.map (fun p => (p.1, p.2.toVal))) m.procActs ds2
        = (ds3, some pmsg) := by
      rw [hproc, runActions_append, hppre]
      simp [runActions]
    simp [Measurement.run, hen, hne, hset, hseqrun, hprocrun]

/-- Witness for C5 at a concrete measurement: `measSeqRaises` writes v = 1,
raises, and would write w = 2; run at T = 25 it returns failure with the
raise recorded, the post-process skipped, and v = 1 still in its store. -/
theorem meas_run_failure_contract_witness :
    measSeqRaises.run [( "T", PyVal.scalar (Val.intV 25))] freshMeasState =
      Except.ok (false,
        { dsResults := some ⟨[( "T", [Val.intV 25])],
            [( "v", ⟨[ "T"], [([Val.intV 25], Val.intV 1)]⟩)]⟩,
          currentConditions := [( "T", Val.intV 25)],
          lastError := "boom", procRan := false }) :=
  meas_run_failure_contract.1 measSeqRaises [( "T", PyVal.scalar (Val.intV 25))]
    freshMeasState [Action.store "v" (Val.intV 1)] [Action.store "w" (Val.intV 2)]
    "boom" ⟨[( "T", [Val.intV 25])], []⟩
    ⟨[( "T", [Val.intV 25])], [( "v", ⟨[ "T"], [([Val.intV 25], Val.intV 1)]⟩)]⟩
    rfl (by decide) rfl rfl rfl

/-- C9: `clear_all_results` never touches the manager's own aggregate store,
and when the freshly built running order is empty, `run` returns right
after clearing every component's store: nothing is executed, neither hook
runs, no ERROR-stage measurement runs, and the aggregate `ds_results`
keeps the value it had before the call. -/
theorem run_empty_order_returns_after_clear :
    (∀ st : TMState, (clear_all_results st).dsResults = st.dsResults)
    ∧ ∀ (mgr : Manager) (conditions : Option (List (List (String × Val)))) (st : TMState),
      make_running_order mgr conditions = Except.ok [] →
      Manager.run mgr conditions st =
        Except.ok { clear_all_results st with
                    executed := [], errorRan := [], preRan := false, postRan := false } := by
  refine ⟨fun st => rfl, ?_⟩
  intro mgr conditions st h
  simp [Manager.run, h]

/-- Witness for C9 at a concrete manager with no conditions and no
measurements (empty running order) and a state carrying a previous
aggregate result: the run returns the cleared state, whose aggregate store
is still the old one. -/
theorem run_empty_order_returns_after_clear_witness :
    Manager.run mgrEmpty none stPrev =
      Except.ok { clear_all_results stPrev with
                  executed := [], errorRan := [], preRan := false, postRan := false }
    ∧ ({ clear_all_results stPrev with
         executed := [], errorRan := [], preRan := false, postRan := false } : TMState).dsResults
        = some storeX1 :=
  ⟨run_empty_order_returns_after_clear.2 mgrEmpty none stPrev rfl, rfl⟩

theorem add_to_running_order_append (mgr : Manager) (ord : List Entry) (e : Entry) (ord2 : List Entry) :
    add_to_running_order mgr ord e = Except.ok ord2 → ord2 = ord ++ [e] := by
  cases e with
  | setCond label v =>
    intro h
    simp only [add_to_running_order] at h
    split at h
    · cases h
    · split at h
      · cases h
      · cases h
        rfl
  | runMeas label args =>
    intro h
    simp only [add_to_running_order] at h
    split at h
    · cases h
    · cases h
      rfl

theorem foldlM_entries_mono {α : Type}
    (f : List Entry → α → Except String (List Entry))
    (hf : ∀ o p o2, f o p = Except.ok o2 → o <+: o2) :
    ∀ (l : List α) (o o2 : List Entry),
      l.foldlM f o = Except.ok o2 → o <+: o2 := by
  intro l
  induction l with
  | nil =>
    intro o o2 h
    have h2 : o = o2 := by
      simpa [List.foldlM, pure, Except.pure] using h
    exact h2 ▸ List.prefix_rfl
  | cons p rest ih =>
    intro o o2 h
    rw [List.foldlM_cons] at h
    cases hf1 : f o p with
    | error e =>
      rw [hf1] at h
      have : (Except.error e >>= fun init => List.foldlM f init rest)
          = (Except.error e : Except String (List Entry)) := rfl
      rw [this] at h
      cases h
    | ok o1 =>
      rw [hf1] at h
      have : (Except.ok o1 >>= fun init => List.foldlM f init rest)
          = List.foldlM f o1 rest := rfl
      rw [this] at h
      exact (hf o p o1 hf1).trans (ih o1 o2 h)

theorem run_meas_on_startup_mono (mgr : Manager) (ord ord2 : List Entry) :
    run_meas_on_startup mgr ord = Except.ok ord2 → ord <+: ord2 := by
  unfold run_meas_on_startup
  refine foldlM_entries_mono _ ?_ mgr.meas ord ord2
  intro o p o2 h
  split at h
  · cases h
    exact List.prefix_rfl
  · rw [add_to_running_order_append mgr o _ o2 h]
    exact List.prefix_append o _

theorem run_meas_on_teardown_mono (mgr : Manager) (ord ord2 : List Entry) :
    run_meas_on_teardown mgr ord = Except.ok ord2 → ord <+: ord2 := by
  unfold run_meas_on_teardown
  refine foldlM_entries_mono _ ?_ mgr.meas ord ord2
  intro o p o2 h
  split at h
  · cases h
    exact List.prefix_rfl
  · rw [add_to_running_order_append mgr o _ o2 h]
    exact List.prefix_append o _

theorem run_main_meas_mono (mgr : Manager) (conditions : List (String × Val)) (ord ord2 : List Entry) :
    run_main_meas mgr conditions ord = Except.ok ord2 → ord <+: ord2 := by
  unfold run_main_meas
  refine foldlM_entries_mono _ ?_ mgr.meas ord ord2
  intro o p o2 h
  split at h
  · cases h
    exact List.prefix_rfl
  · rw [add_to_running_order_append mgr o _ o2 h]
    exact List.prefix_append o _

theorem except_ok_bind {α β : Type} (a : α) (f : α → Except String β) :
    (Except.ok a >>= f) = f a := rfl

theorem except_error_bind {α β : Type} (e : String) (f : α → Except String β) :
    ((Except.error e : Except String α) >>= f) = Except.error e := rfl

theorem run_meas_on_setup_mono (mgr : Manager) (cl : String) (conds : List (String × Val)) (ord ord2 : List Entry) :
    run_meas_on_setup mgr cl conds ord = Except.ok ord2 → ord <+: ord2 := by
  unfold run_meas_on_setup
  cases alookup cl conds with
  | none =>
    intro h
    cases h
  | some v =>
    refine foldlM_entries_mono _ ?_ mgr.meas ord ord2
    intro o p o2 h
    cases halo : alookup Stage.SETUP p.2.runConditions with
    | none =>
      simp only [halo] at h
      cases h
      exact List.prefix_rfl
    | some rule =>
      simp only [halo] at h
      split at h
      · cases h
        exact List.prefix_rfl
      · split at h
        · cases h
        · split at h
          · cases h
          · rw [add_to_running_order_append mgr o _ o2 h]
            exact List.prefix_append o _

theorem run_after_meas_mono (mgr : Manager) (dfCond : List (List (String × Val))) (idx : Nat)
    (conditions : List (String × Val)) (ord ord2 : List Entry) :
    run_after_meas mgr dfCond idx conditions ord = Except.ok ord2 → ord <+: ord2 := by
  unfold run_after_meas
  refine foldlM_entries_mono _ ?_ mgr.meas ord ord2
  intro o p o2 h
  split at h
  · cases h
    exact List.prefix_rfl
  · cases hchk : check_meas_conditions dfCond idx p.2 Stage.AFTER conditions with
    | error e =>
      rw [hchk] at h
      have : ((Except.error e : Except String Bool) >>= fun b =>
          if b then add_to_running_order mgr o (Entry.runMeas p.1 conditions) else Except.ok o)
          = (Except.error e : Except String (List Entry)) := rfl
      rw [this] at h
      cases h
    | ok b =>
      rw [hchk] at h
      have : ((Except.ok b : Except String Bool) >>= fun b =>
          if b then add_to_running_order mgr o (Entry.runMeas p.1 conditions) else Except.ok o)
          = if b then add_to_running_order mgr o (Entry.runMeas p.1 conditions) else Except.ok o := rfl
      rw [this] at h
      cases b with
      | true =>
        rw [if_pos rfl] at h
        rw [add_to_running_order_append mgr o _ o2 h]
        exact List.prefix_append o _
      | false =>
        cases h
        exact List.prefix_rfl

theorem condLoop_mono (mgr : Manager) (row lastCond : List (String × Val)) :
    ∀ (cs : List Condition) (accum : List (String × Val)) (ord ord2 : List Entry),
      condLoop mgr row lastCond cs accum ord = Except.ok ord2 → ord <+: ord2 := by
  intro cs
  induction cs with
  | nil =>
    intro accum ord ord2 h
    cases h
    exact List.prefix_rfl
  | cons c rest ih =>
    intro accum ord ord2 h
    simp only [condLoop] at h
    cases h1 : alookup c.name row with
    | none =>
      simp only [h1] at h
      cases h
    | some v =>
      simp only [h1] at h
      cases h2 : alookup c.name lastCond with
      | none =>
        simp only [h2] at h
        cases h
      | some lastv =>
        simp only [h2] at h
        split at h
        · cases h3 : add_to_running_order mgr ord (Entry.setCond c.name v) with
          | error e =>
            simp only [h3, except_error_bind] at h
            cases h
          | ok o1 =>
            simp only [h3, except_ok_bind] at h
            cases h4 : run_meas_on_setup mgr c.name (aset c.name v accum) o1 with
            | error e =>
              simp only [h4, except_error_bind] at h
              cases h
            | ok o5 =>
              simp only [h4, except_ok_bind] at h
              have p1 : ord <+: o1 := by
                rw [add_to_running_order_append mgr ord _ o1 h3]
                exact List.prefix_append ord _
              exact p1.trans ((run_meas_on_setup_mono mgr c.name _ o1 o5 h4).trans
                (ih _ o5 ord2 h))
        · exact ih _ ord ord2 h

theorem rowsLoop_mono (mgr : Manager) (dfCond : List (List (String × Val))) :
    ∀ (rows : List (List (String × Val))) (idx : Nat) (lastCond : List (String × Val))
      (ord ord2 : List Entry),
      rowsLoop mgr dfCond idx rows lastCond ord = Except.ok ord2 → ord <+: ord2 := by
  intro rows
  induction rows with
  | nil =>
    intro idx lastCond ord ord2 h
    cases h
    exact List.prefix_rfl
  | cons row rest ih =>
    intro idx lastCond ord ord2 h
    simp only [rowsLoop] at h
    cases h1 : condLoop mgr row lastCond mgr.conditions [] ord with
    | error e =>
      simp only [h1, except_error_bind] at h
      cases h
    | ok o1 =>
      simp only [h1, except_ok_bind] at h
      cases h2 : run_main_meas mgr row o1 with
      | error e =>
        simp only [h2, except_error_bind] at h
        cases h
      | ok o2 =>
        simp only [h2, except_ok_bind] at h
        cases h3 : run_after_meas mgr dfCond idx row o2 with
        | error e =>
          simp only [h3, except_error_bind] at h
          cases h
        | ok o3 =>
          simp only [h3, except_ok_bind] at h
          exact ((condLoop_mono mgr row lastCond mgr.conditions [] ord o1 h1).trans
            (run_main_meas_mono mgr row o1 o2 h2)).trans
            ((run_after_meas_mono mgr dfCond idx row o2 o3 h3).trans
              (ih (idx + 1) row o3 ord2 h))

/-- C10: every line appended to the running order stores a value snapshot of
its arguments (`ord2 = ord ++ [e]`, the deep copy of
`add_to_running_order`), and processing further rows and conditions only
ever appends - the running order built so far is a prefix of every later
state, so the condition map carried by an already-emitted line never
changes.  Concretely, with A = [1, 2], B = [10, 20] and a measurement M in
SETUP stage on both conditions, the two SETUP lines of the first row carry
the distinct accumulated snapshots (A=1) and (A=1, B=10). -/
theorem running_order_snapshots :
    (∀ (mgr : Manager) (ord : List Entry) (e : Entry) (ord2 : List Entry),
        add_to_running_order mgr ord e = Except.ok ord2 → ord2 = ord ++ [e])
    ∧ (∀ (mgr : Manager) (dfCond : List (List (String × Val))) (idx : Nat)
         (rows : List (List (String × Val))) (lastCond : List (String × Val))
         (ord ord2 : List Entry),
        rowsLoop mgr dfCond idx rows lastCond ord = Except.ok ord2 → ord <+: ord2)
    ∧ make_running_order mgrSetupAB none =
        Except.ok [Entry.setCond "A" (Val.intV 1),
                   Entry.runMeas "M" [( "A", Val.intV 1)],
                   Entry.setCond "B" (Val.intV 10),
                   Entry.runMeas "M" [( "A", Val.intV 1), ( "B", Val.intV 10)],
                   Entry.setCond "B" (Val.intV 20),
                   Entry.runMeas "M" [( "A", Val.intV 1), ( "B", Val.intV 20)],
                   Entry.setCond "A" (Val.intV 2),
                   Entry.runMeas "M" [( "A", Val.intV 2)],
                   Entry.setCond "B" (Val.intV 10),
                   Entry.runMeas "M" [( "A", Val.intV 2), ( "B", Val.intV 10)],
                   Entry.setCond "B" (Val.intV 20),
                   Entry.runMeas "M" [( "A", Val.intV 2), ( "B", Val.intV 20)]]
    ∧ Entry.runMeas "M" [( "A", Val.intV 1)]
        ≠ Entry.runMeas "M" [( "A", Val.intV 1), ( "B", Val.intV 10)] := by
  refine ⟨add_to_running_order_append, ?_, rfl, by decide⟩
  intro mgr dfCond idx rows lastCond ord ord2 h
  exact rowsLoop_mono mgr dfCond rows idx lastCond ord ord2 h

/-- Witness for C10: the prefix fact applied at the concrete configuration
(the empty order built up over the two rows of `mgrSetupAB` is extended,
never rewritten), and the snapshot fact applied at a concrete append. -/
theorem running_order_snapshots_witness :
    (([] : List Entry) <+:
      [Entry.setCond "A" (Val.intV 1),
       Entry.runMeas "M" [( "A", Val.intV 1)],
       Entry.setCond "B" (Val.intV 10),
       Entry.runMeas "M" [( "A", Val.intV 1), ( "B", Val.intV 10)],
       Entry.setCond "B" (Val.intV 20),
       Entry.runMeas "M" [( "A", Val.intV 1), ( "B", Val.intV 20)],
       Entry.setCond "A" (Val.intV 2),
       Entry.runMeas "M" [( "A", Val.intV 2)],
       Entry.setCond "B" (Val.intV 10),
       Entry.runMeas "M" [( "A", Val.intV 2), ( "B", Val.intV 10)],
       Entry.setCond "B" (Val.intV 20),
       Entry.runMeas "M" [( "A", Val.intV 2), ( "B", Val.intV 20)]])
    ∧ [Entry.setCond "A" (Val.intV 1)] = [] ++ [Entry.setCond "A" (Val.intV 1)] :=
  ⟨running_order_snapshots.2.1 mgrSetupAB (conditions_table mgrSetupAB.conditions) 0
      (conditions_table mgrSetupAB.conditions)
      [( "A", Val.noneV), ( "B", Val.noneV)] [] _ rfl,
   running_order_snapshots.1 mgrSetupAB [] (Entry.setCond "A" (Val.intV 1))
      [Entry.setCond "A" (Val.intV 1)] rfl⟩

theorem execEntries_append (mgr : Manager) :
    ∀ (l1 l2 : List Entry) (ms : List (String × MeasState)) (cur : List (String × Val)) (ex : List Entry),
      execEntries mgr (l1 ++ l2) ms cur ex =
        match execEntries mgr l1 ms cur ex with
        | ExecOutcome.done ms2 cur2 ex2 => execEntries mgr l2 ms2 cur2 ex2
        | ExecOutcome.aborted ms2 cur2 ex2 e => ExecOutcome.aborted ms2 cur2 ex2 e := by
  intro l1
  induction l1 with
  | nil =>
    intro l2 ms cur ex
    simp [execEntries]
  | cons a rest ih =>
    intro l2 ms cur ex
    cases a with
    | setCond label v =>
      simp only [List.cons_append, execEntries]
      exact ih l2 ms (aset label v cur) (ex ++ [Entry.setCond label v])
    | runMeas label args =>
      simp only [List.cons_append, execEntries]
      cases h1 : alookup label mgr.meas with
      | none =>
        cases h2 : alookup label ms with
        | none => simp [h1, h2]
        | some st => simp [h1, h2]
      | some m =>
        cases h2 : alookup label ms with
        | none => simp [h1, h2]
        | some st =>
          simp only [h1, h2]
          cases h3 : Measurement.run m (args.map (fun p => (p.1, PyVal.scalar p.2))) st with
          | error e => simp [h3]
          | ok r =>
            obtain ⟨b, st2⟩ := r
            cases b with
            | true => simp [h3, ih]
            | false => simp [h3]

theorem execEntries_done_executed (mgr : Manager) :
    ∀ (l : List Entry) (ms : List (String × MeasState)) (cur : List (String × Val))
      (ex : List Entry) (ms2 : List (String × MeasState)) (cur2 : List (String × Val))
      (ex2 : List Entry),
      execEntries mgr l ms cur ex = ExecOutcome.done ms2 cur2 ex2 → ex2 = ex ++ l := by
  intro l
  induction l with
  | nil =>
    intro ms cur ex ms2 cur2 ex2 h
    cases h
    simp
  | cons a rest ih =>
    intro ms cur ex ms2 cur2 ex2 h
    cases a with
    | setCond label v =>
      simp only [execEntries] at h
      have := ih _ _ _ _ _ _ h
      simp [this]
    | runMeas label args =>
      simp only [execEntries] at h
      cases h1 : alookup label mgr.meas with
      | none =>
        cases h2 : alookup label ms with
        | none => simp [h1, h2] at h
        | some st => simp [h1, h2] at h
      | some m =>
        cases h2 : alookup label ms with
        | none => simp [h1, h2] at h
        | some st =>
          simp only [h1, h2] at h
          cases h3 : Measurement.run m (args.map (fun p => (p.1, PyVal.scalar p.2))) st with
          | error e => simp [h3] at h
          | ok r =>
            obtain ⟨b, st2⟩ := r
            cases b with
            | true =>
              simp only [h3, if_true] at h
              have := ih _ _ _ _ _ _ (by simpa using h)
              simp [this]
            | false =>
              simp [h3] at h

theorem foldl_attempt_labels {σ : Type}
    (f : σ × List String → (String × Measurement) → σ × List String)
    (hf : ∀ acc p, (f acc p).2 =
      if ahas Stage.ERROR p.2.runConditions then acc.2 ++ [p.1] else acc.2) :
    ∀ (l : List (String × Measurement)) (acc : σ × List String),
      (l.foldl f acc).2 =
        acc.2 ++ (l.filter (fun p => ahas Stage.ERROR p.2.runConditions)).map Prod.fst := by
  intro l
  induction l with
  | nil =>
    intro acc
    simp
  | cons p rest ih =>
    intro acc
    rw [List.foldl_cons, ih (f acc p), hf]
    by_cases h : ahas Stage.ERROR p.2.runConditions
    · simp [List.filter_cons, h]
    · simp [List.filter_cons, h]

theorem run_meas_on_error_attempts (mgr : Manager) (conditions : List (String × Val))
    (ms : List (String × MeasState)) :
    (run_meas_on_error mgr conditions ms).2 =
      (mgr.meas.filter (fun p => ahas Stage.ERROR p.2.runConditions)).map Prod.fst := by
  unfold run_meas_on_error
  rw [foldl_attempt_labels _ ?_ mgr.meas (ms, [])]
  · simp
  · intro acc p
    by_cases h : ahas Stage.ERROR p.2.runConditions
    · simp only [h, if_true, if_neg (by simp [h] : ¬ ¬ (ahas Stage.ERROR p.2.runConditions = true))]
      cases h2 : alookup p.1 acc.1 with
      | none => simp [h2]
      | some st =>
        simp only [h2]
        cases h3 : Measurement.run p.2 (conditions.map (fun q => (q.1, PyVal.scalar q.2))) st with
        | error e => simp [h3]
        | ok r =>
          obtain ⟨b, st2⟩ := r
          simp [h3]
    · simp [h]

/-- C4: when a RunMeasurement line of the running order returns failure
during `Manager.run` (after a cleanly executed prefix), the walk stops at
that line - nothing after it executes; every ERROR-stage measurement is
then attempted, in declaration order, regardless of how many of them
themselves fail (their failures are recorded per measurement, not
propagated: the run still returns normally); and the final aggregation
still runs, rebuilding the manager's `ds_results` from the component
stores as they stand. -/
theorem run_failure_error_stage_aggregation :
    ∀ (mgr : Manager) (conditions : Option (List (List (String × Val)))) (st : TMState)
      (pre post : List Entry) (l : String) (args : List (String × Val))
      (row0 : List (String × Val)) (rows : List (List (String × Val)))
      (ms1 : List (String × MeasState)) (cur1 : List (String × Val)) (ex1 : List Entry)
      (m : Measurement) (mst mst2 : MeasState) (agg : Store),
      make_running_order mgr conditions = Except.ok (pre ++ Entry.runMeas l args :: post) →
      conditions_table mgr.conditions = row0 :: rows →
      execEntries mgr pre (clear_all_results st).measStates
          (row0.map (fun p => (p.1, Val.noneV))) []
        = ExecOutcome.done ms1 cur1 ex1 →
      alookup l mgr.meas = some m →
      alookup l ms1 = some mst →
      m.run (args.map (fun p => (p.1, PyVal.scalar p.2))) mst = Except.ok (false, mst2) →
      get_results mgr (run_meas_on_error mgr cur1 (aset l mst2 ms1)).1 = Except.ok agg →
      Manager.run mgr conditions st = Except.ok
        { measStates := (run_meas_on_error mgr cur1 (aset l mst2 ms1)).1,
          condStores := (clear_all_results st).condStores,
          dsResults := some agg,
          lastError := "AssertionError: Measurement failed",
          preRan := true, postRan := false,
          executed := pre ++ [Entry.runMeas l args],
          errorRan := (mgr.meas.filter
            (fun p => ahas Stage.ERROR p.2.runConditions)).map Prod.fst } := by
  intro mgr conditions st pre post l args row0 rows ms1 cur1 ex1 m mst mst2 agg
  intro hmro htab hpre hm hms hrun hagg
  have hex : execEntries mgr (pre ++ Entry.runMeas l args :: post)
      (clear_all_results st).measStates (row0.map (fun p => (p.1, Val.noneV))) []
      = ExecOutcome.aborted (aset l mst2 ms1) cur1 (ex1 ++ [Entry.runMeas l args])
          "AssertionError: Measurement failed" := by
    rw [execEntries_append, hpre]
    simp [execEntries, hm, hms, hrun]
  have hex1 : ex1 = pre := by
    simpa using execEntries_done_executed mgr pre _ _ _ _ _ _ hpre
  simp only [Manager.run, hmro]
  rw [if_neg (by simp)]
  simp only [htab]
  simp only [hex, hex1, hagg, run_meas_on_error_attempts]

/-- Witness for C4 at the concrete `mgrAbort` run: the prefix (SetCondition
A=1, M1) succeeds, M2 fails, M3 is never executed, both ERROR-stage
measurements E1 and E2 are attempted although E2 itself raises, and the
aggregate store is rebuilt from m1 and e1. -/
theorem run_failure_error_stage_aggregation_witness :
    Manager.run mgrAbort none stAbort = Except.ok
      { measStates := (run_meas_on_error mgrAbort [( "A", Val.intV 1)]
          (aset "M2" mstM2Failed msAfterPre)).1,
        condStores := (clear_all_results stAbort).condStores,
        dsResults := some aggAbort,
        lastError := "AssertionError: Measurement failed",
        preRan := true, postRan := false,
        executed := [Entry.setCond "A" (Val.intV 1),
                     Entry.runMeas "M1" [( "A", Val.intV 1)]]
          ++ [Entry.runMeas "M2" [( "A", Val.intV 1)]],
        errorRan := (mgrAbort.meas.filter
          (fun p => ahas Stage.ERROR p.2.runConditions)).map Prod.fst } :=
  run_failure_error_stage_aggregation mgrAbort none stAbort
    [Entry.setCond "A" (Val.intV 1), Entry.runMeas "M1" [( "A", Val.intV 1)]]
    [Entry.runMeas "M3" [( "A", Val.intV 1)]]
    "M2" [( "A", Val.intV 1)]
    [( "A", Val.intV 1)] []
    msAfterPre [( "A", Val.intV 1)]
    [Entry.setCond "A" (Val.intV 1), Entry.runMeas "M1" [( "A", Val.intV 1)]]
    measMainBad freshMeasState mstM2Failed aggAbort
    rfl rfl rfl rfl rfl rfl rfl

end TMPL
